import Mathlib

/-!
Shallow embedding of the snake game engine (`src/snake.py`, class `SnakeGame`).

Modelling conventions:
* The construction constants set in `SnakeGame.__init__` (`width`, `height`,
  `cell_size`, `base_speed_ms`, `min_speed_ms`) are gathered in a `Config`
  record; the concrete values of the source (`1500`, `1000`, `30`, `200`,
  `100`) are `default_config`.
* Board positions are pairs of integers (Python ints may go negative, e.g.
  one step left of column 0).
* `random.choice(seq)` is modelled by an explicit random index `rand : Nat`
  reduced modulo the length of the sequence; on an empty sequence
  `random.choice` raises `IndexError`, modelled as `none`.
* Operations that can raise an uncaught Python exception return
  `Option GameState`; `none` means the exception propagates out of the
  handler and no successor state is produced.
* Rendering (`draw`, `draw_cell`), the Tk scheduling plumbing
  (`schedule_next_tick`, `after`, `after_cancel`) and key bindings are I/O
  adapters with no effect on the game state and are not modelled.
-/

set_option linter.unusedVariables false

namespace SnakeGame

/-- The four movement directions of `SnakeGame.direction_vectors`. -/
inductive Dir where
  | up
  | down
  | left
  | right
deriving DecidableEq, Repr

/-- `self.direction_vectors`: each direction maps to a unit vector
`(dx, dy)`; the y axis grows downwards, as in the source. -/
def direction_vectors : Dir → Int × Int
  | .up => (0, -1)
  | .down => (0, 1)
  | .left => (-1, 0)
  | .right => (1, 0)

/-- `self.opposites`: the opposite of each direction. -/
def opposites : Dir → Dir
  | .up => .down
  | .down => .up
  | .left => .right
  | .right => .left

/-- The configuration constants assigned in `SnakeGame.__init__`.
Pixel sizes are naturals (the source uses positive literals and Python
floor division); the speeds are integers because
`self.base_speed_ms - self.score * 2` can go negative in Python. -/
structure Config where
  width : Nat
  height : Nat
  cell_size : Nat
  base_speed_ms : Int
  min_speed_ms : Int
deriving DecidableEq, Repr

/-- The concrete constants of `SnakeGame.__init__`:
`width = 1500`, `height = 1000`, `cell_size = 30`,
`base_speed_ms = 200`, `min_speed_ms = 100`. -/
def default_config : Config :=
  { width := 1500, height := 1000, cell_size := 30
    base_speed_ms := 200, min_speed_ms := 100 }

/-- `cols = self.width // self.cell_size`. -/
def Config.cols (c : Config) : Nat := c.width / c.cell_size

/-- `rows = self.height // self.cell_size`. -/
def Config.rows (c : Config) : Nat := c.height / c.cell_size

/-- The mutable game fields of `SnakeGame` (the non-configuration, non-I/O
attributes assigned by `reset_game` and mutated by `tick` /
`change_direction`). -/
structure GameState where
  snake : List (Int × Int)
  direction : Dir
  next_direction : Dir
  food : Int × Int
  score : Nat
  game_over : Bool
  speed_ms : Int
deriving DecidableEq, Repr

/-- The list comprehension in `spawn_food`:
`[(x, y) for x in range(cols) for y in range(rows)]`, i.e. all board
cells with `x` as the outer loop. -/
def all_cells (c : Config) : List (Int × Int) :=
  (List.range c.cols).flatMap fun x =>
    (List.range c.rows).map fun (y : Nat) => ((x : Int), (y : Int))

/-- The cells of the board not occupied by the snake
(the `available` list of `spawn_food`). -/
def available_cells (c : Config) (snake : List (Int × Int)) :
    List (Int × Int) :=
  (all_cells c).filter fun p => decide (p ∉ snake)

/-- `random.choice(l)`: returns an arbitrary element of `l`, selected here
by the explicit random index `rand`; raises `IndexError` (= `none`) when
`l` is empty. -/
def rand_choice (rand : Nat) (l : List α) : Option α :=
  l.get? (rand % l.length)

/-- `SnakeGame.spawn_food`: `random.choice` over the available cells;
`none` models the `IndexError` raised when no cell is free. -/
def spawn_food (c : Config) (rand : Nat) (snake : List (Int × Int)) :
    Option (Int × Int) :=
  rand_choice rand (available_cells c snake)

/-- The initial snake of `reset_game`: three cells centered on the board,
head first, extending to the left of the head. -/
def initial_snake (c : Config) : List (Int × Int) :=
  let center_x : Int := (c.cols / 2 : Nat)
  let center_y : Int := (c.rows / 2 : Nat)
  [(center_x, center_y), (center_x - 1, center_y), (center_x - 2, center_y)]

/-- `SnakeGame.reset_game`: fresh snake, direction Right (current and
pending), fresh food, score 0, running, base speed. `none` models the
`IndexError` that `spawn_food` raises when the fresh snake leaves no free
cell (only possible on a degenerate board). -/
def reset_game (c : Config) (rand : Nat) : Option GameState :=
  match spawn_food c rand (initial_snake c) with
  | none => none
  | some f =>
      some { snake := initial_snake c
             direction := .right
             next_direction := .right
             food := f
             score := 0
             game_over := false
             speed_ms := c.base_speed_ms }

/-- `SnakeGame.restart_if_game_over`: calls `reset_game` only when the
current run has ended, otherwise leaves the state untouched. -/
def restart_if_game_over (c : Config) (rand : Nat) (s : GameState) :
    Option GameState :=
  if s.game_over then reset_game c rand else some s

/-- `SnakeGame.change_direction`: ignored when the game is over or when the
requested direction is the opposite of the current committed direction;
otherwise it only sets the pending direction. -/
def change_direction (s : GameState) (new_direction : Dir) : GameState :=
  if s.game_over then s
  else if new_direction = opposites s.direction then s
  else { s with next_direction := new_direction }

/-- `SnakeGame.hits_wall`: the position lies outside `[0, cols) × [0, rows)`
(the source returns this as a boolean). -/
def hits_wall (c : Config) (pos : Int × Int) : Prop :=
  pos.1 < 0 ∨ pos.2 < 0 ∨ (c.cols : Int) ≤ pos.1 ∨ (c.rows : Int) ≤ pos.2

instance (c : Config) (pos : Int × Int) : Decidable (hits_wall c pos) := by
  unfold hits_wall; infer_instance

/-- `SnakeGame.hits_self`: the position overlaps the snake body
(the source returns this as a boolean). -/
def hits_self (s : GameState) (pos : Int × Int) : Prop :=
  pos ∈ s.snake

instance (s : GameState) (pos : Int × Int) : Decidable (hits_self s pos) := by
  unfold hits_self; infer_instance

/-- The new head `tick` computes: the current head plus the unit vector of
the committed direction (which `tick` first sets to the pending
direction). Junk value `(0, 0)` on an empty snake, where `tick` itself
raises (`self.snake[0]` is an `IndexError`). -/
def new_head (s : GameState) : Int × Int :=
  match s.snake with
  | [] => (0, 0)
  | (x, y) :: _ =>
      (x + (direction_vectors s.next_direction).1,
       y + (direction_vectors s.next_direction).2)

/-- `SnakeGame.tick`, the simulation step:
returns immediately when the game is over; commits the pending direction;
on wall or self collision (checked against the pre-move body) only sets
`game_over`; otherwise prepends the new head, then either eats (score,
food respawn, speed-up) or pops the tail. `none` models an uncaught
`IndexError` (empty snake, or `spawn_food` on a full board). -/
def tick (c : Config) (rand : Nat) (s : GameState) : Option GameState :=
  if s.game_over then some s
  else
    match s.snake with
    | [] => none
    | (head_x, head_y) :: _ =>
        let d := s.next_direction
        let v := direction_vectors d
        let nh := (head_x + v.1, head_y + v.2)
        if hits_wall c nh ∨ hits_self s nh then
          some { s with direction := d, game_over := true }
        else
          let snake1 := nh :: s.snake
          if nh = s.food then
            match spawn_food c rand snake1 with
            | none => none
            | some f =>
                some { s with
                       direction := d
                       snake := snake1
                       score := s.score + 1
                       food := f
                       speed_ms := max c.min_speed_ms
                         (c.base_speed_ms - ((s.score : Int) + 1) * 2) }
          else
            some { s with direction := d, snake := snake1.dropLast }

/-- The states of the engine reachable from a fresh game through the event
handlers of the source: timer ticks, direction keys and the space
(restart) key. Each random draw of `spawn_food` is an arbitrary `rand`. -/
inductive Reachable (c : Config) : GameState → Prop where
  | init (rand : Nat) (s : GameState) :
      reset_game c rand = some s → Reachable c s
  | step_tick (rand : Nat) (s t : GameState) :
      Reachable c s → tick c rand s = some t → Reachable c t
  | step_dir (d : Dir) (s : GameState) :
      Reachable c s → Reachable c (change_direction s d)
  | step_restart (rand : Nat) (s t : GameState) :
      Reachable c s → restart_if_game_over c rand s = some t → Reachable c t

/-- Position inside the playable board: the complement of `hits_wall`. -/
def in_bounds (c : Config) (pos : Int × Int) : Prop :=
  0 ≤ pos.1 ∧ 0 ≤ pos.2 ∧ pos.1 < (c.cols : Int) ∧ pos.2 < (c.rows : Int)

instance (c : Config) (pos : Int × Int) : Decidable (in_bounds c pos) := by
  unfold in_bounds; infer_instance

/-! ### Basic facts about directions -/

theorem opposites_ne (d : Dir) : opposites d ≠ d := by
  cases d <;> simp [opposites]

theorem direction_vectors_opposites (d : Dir) :
    direction_vectors (opposites d) =
      (-(direction_vectors d).1, -(direction_vectors d).2) := by
  cases d <;> rfl

theorem eq_opposites_of_direction_vectors_neg (d e : Dir)
    (h : direction_vectors d = (-(direction_vectors e).1, -(direction_vectors e).2)) :
    d = opposites e := by
  cases d <;> cases e <;> simp_all [direction_vectors, opposites]

/-! ### Facts about the board and food spawning -/

theorem mem_all_cells (c : Config) (p : Int × Int) :
    p ∈ all_cells c ↔ in_bounds c p := by
  obtain ⟨a, b⟩ := p
  constructor
  · intro hp
    obtain ⟨x, hxmem, hp⟩ := List.mem_flatMap.mp hp
    obtain ⟨y, hymem, hpe⟩ := List.mem_map.mp hp
    rw [List.mem_range] at hxmem hymem
    obtain ⟨rfl, rfl⟩ := Prod.mk.injEq .. ▸ hpe
    exact ⟨by omega, by omega, by simp only; omega, by simp only; omega⟩
  · rintro ⟨h1, h2, h3, h4⟩
    dsimp only at h1 h2 h3 h4
    refine List.mem_flatMap.mpr ⟨a.toNat, ?_, List.mem_map.mpr ⟨b.toNat, ?_, ?_⟩⟩
    · rw [List.mem_range]; omega
    · rw [List.mem_range]; omega
    · have e1 : (a.toNat : Int) = a := Int.toNat_of_nonneg h1
      have e2 : (b.toNat : Int) = b := Int.toNat_of_nonneg h2
      rw [e1, e2]

theorem mem_available_cells (c : Config) (snake : List (Int × Int))
    (p : Int × Int) :
    p ∈ available_cells c snake ↔ in_bounds c p ∧ p ∉ snake := by
  simp [available_cells, List.mem_filter, mem_all_cells]

theorem rand_choice_mem {α : Type} (rand : Nat) (l : List α) (a : α)
    (h : rand_choice rand l = some a) : a ∈ l :=
  List.get?_mem h

theorem rand_choice_eq_none_iff {α : Type} (rand : Nat) (l : List α) :
    rand_choice rand l = none ↔ l = [] := by
  constructor
  · intro h
    by_contra hne
    have hpos : 0 < l.length := List.length_pos.mpr hne
    have hlt : rand % l.length < l.length := Nat.mod_lt _ hpos
    rw [rand_choice, List.get?_eq_get hlt] at h
    exact Option.noConfusion h
  · rintro rfl
    rfl

theorem spawn_food_some_spec (c : Config) (rand : Nat)
    (snake : List (Int × Int)) (f : Int × Int)
    (h : spawn_food c rand snake = some f) :
    in_bounds c f ∧ f ∉ snake :=
  (mem_available_cells c snake f).mp (rand_choice_mem _ _ _ h)

theorem spawn_food_eq_none_iff (c : Config) (rand : Nat)
    (snake : List (Int × Int)) :
    spawn_food c rand snake = none ↔ available_cells c snake = [] :=
  rand_choice_eq_none_iff _ _

theorem not_hits_wall_iff (c : Config) (p : Int × Int) :
    ¬ hits_wall c p ↔ in_bounds c p := by
  unfold hits_wall in_bounds
  omega

/-! ### Case analysis lemmas for `tick` -/

theorem tick_of_game_over (c : Config) (rand : Nat) (s : GameState)
    (hgo : s.game_over = true) : tick c rand s = some s := by
  simp [tick, hgo]

theorem tick_collision (c : Config) (rand : Nat) (s : GameState)
    (hgo : s.game_over = false) (hx hy : Int) (rest : List (Int × Int))
    (hs : s.snake = (hx, hy) :: rest)
    (hcol : hits_wall c (new_head s) ∨ hits_self s (new_head s)) :
    tick c rand s =
      some { s with direction := s.next_direction, game_over := true } := by
  have hnh : new_head s = (hx + (direction_vectors s.next_direction).1,
      hy + (direction_vectors s.next_direction).2) := by
    rw [new_head, hs]
  rw [tick, hgo]
  simp only [Bool.false_eq_true, if_false, hs]
  rw [if_pos]
  exact hnh ▸ hcol

theorem tick_eat (c : Config) (rand : Nat) (s : GameState) (f : Int × Int)
    (hgo : s.game_over = false) (hx hy : Int) (rest : List (Int × Int))
    (hs : s.snake = (hx, hy) :: rest)
    (hcol : ¬ (hits_wall c (new_head s) ∨ hits_self s (new_head s)))
    (hfood : new_head s = s.food)
    (hspawn : spawn_food c rand (new_head s :: s.snake) = some f) :
    tick c rand s = some { s with
      direction := s.next_direction
      snake := new_head s :: s.snake
      score := s.score + 1
      food := f
      speed_ms := max c.min_speed_ms
        (c.base_speed_ms - ((s.score : Int) + 1) * 2) } := by
  have hnh : new_head s = (hx + (direction_vectors s.next_direction).1,
      hy + (direction_vectors s.next_direction).2) := by
    rw [new_head, hs]
  rw [tick, hgo]
  simp only [Bool.false_eq_true, if_false, hs]
  rw [if_neg (hnh ▸ hcol), if_pos (by rw [← hnh, hfood]), ← hnh, ← hs]
  rw [hspawn]

theorem tick_eat_fail (c : Config) (rand : Nat) (s : GameState)
    (hgo : s.game_over = false) (hx hy : Int) (rest : List (Int × Int))
    (hs : s.snake = (hx, hy) :: rest)
    (hcol : ¬ (hits_wall c (new_head s) ∨ hits_self s (new_head s)))
    (hfood : new_head s = s.food)
    (hspawn : spawn_food c rand (new_head s :: s.snake) = none) :
    tick c rand s = none := by
  have hnh : new_head s = (hx + (direction_vectors s.next_direction).1,
      hy + (direction_vectors s.next_direction).2) := by
    rw [new_head, hs]
  rw [tick, hgo]
  simp only [Bool.false_eq_true, if_false, hs]
  rw [if_neg (hnh ▸ hcol), if_pos (by rw [← hnh, hfood]), ← hnh, ← hs]
  rw [hspawn]

theorem tick_move (c : Config) (rand : Nat) (s : GameState)
    (hgo : s.game_over = false) (hx hy : Int) (rest : List (Int × Int))
    (hs : s.snake = (hx, hy) :: rest)
    (hcol : ¬ (hits_wall c (new_head s) ∨ hits_self s (new_head s)))
    (hfood : new_head s ≠ s.food) :
    tick c rand s = some { s with
      direction := s.next_direction
      snake := (new_head s :: s.snake).dropLast } := by
  have hnh : new_head s = (hx + (direction_vectors s.next_direction).1,
      hy + (direction_vectors s.next_direction).2) := by
    rw [new_head, hs]
  rw [tick, hgo]
  simp only [Bool.false_eq_true, if_false, hs]
  rw [if_neg (hnh ▸ hcol), if_neg (by rw [← hnh]; exact hfood), ← hnh, ← hs]

theorem tick_empty_snake (c : Config) (rand : Nat) (s : GameState)
    (hgo : s.game_over = false) (hs : s.snake = []) :
    tick c rand s = none := by
  rw [tick, hgo]
  simp only [Bool.false_eq_true, if_false, hs]

theorem new_head_eq (s : GameState) (hx hy : Int) (tl : List (Int × Int))
    (hs : s.snake = (hx, hy) :: tl) :
    new_head s = (hx + (direction_vectors s.next_direction).1,
                  hy + (direction_vectors s.next_direction).2) := by
  rw [new_head, hs]

/-! ### The run-time invariant of the engine -/

/-- Everything that holds of every running state the engine can be in:
the snake is on the board, self-overlap-free, of length `score + 3`; the
food is on a free cell; the pending direction is never the reverse of the
committed one; and the neck (second segment) sits one step behind the head
along the committed direction. -/
def Inv (c : Config) (s : GameState) : Prop :=
  s.game_over = false →
    (∀ p ∈ s.snake, in_bounds c p) ∧
    s.snake.Nodup ∧
    s.food ∉ s.snake ∧
    s.snake.length = s.score + 3 ∧
    s.next_direction ≠ opposites s.direction ∧
    ∀ a b r, s.snake = a :: b :: r →
      b = (a.1 - (direction_vectors s.direction).1,
           a.2 - (direction_vectors s.direction).2)

theorem reset_game_inv (c : Config) (hc : 4 ≤ c.cols) (hrw : 1 ≤ c.rows)
    (rand : Nat) (s : GameState) (h : reset_game c rand = some s) :
    Inv c s := by
  rw [reset_game] at h
  cases hsp : spawn_food c rand (initial_snake c) with
  | none => rw [hsp] at h; exact absurd h (by simp)
  | some f =>
      rw [hsp] at h
      obtain ⟨hfb, hfn⟩ := spawn_food_some_spec _ _ _ _ hsp
      injection h with h
      subst h
      intro _
      refine ⟨?_, ?_, hfn, ?_, ?_, ?_⟩
      · intro p hp
        simp only [initial_snake, List.mem_cons, List.not_mem_nil, or_false]
          at hp
        rcases hp with rfl | rfl | rfl <;>
          exact ⟨by omega, by omega, by simp only; omega, by simp only; omega⟩
      · simp only [initial_snake, List.nodup_cons, List.mem_cons,
          List.not_mem_nil, or_false, List.nodup_nil, and_true, not_or,
          Prod.mk.injEq, not_and]
        exact ⟨⟨by omega, by omega⟩, by omega, by simp⟩
      · simp [initial_snake]
      · simp [opposites]
      · intro a b r heq
        simp only [initial_snake, List.cons.injEq] at heq
        obtain ⟨rfl, rfl, -⟩ := heq
        simp [direction_vectors]

theorem tick_inv (c : Config) (rand : Nat) (s t : GameState)
    (hinv : Inv c s) (h : tick c rand s = some t) : Inv c t := by
  cases hgo : s.game_over with
  | true =>
      rw [tick_of_game_over c rand s hgo] at h
      injection h with h
      subst h
      exact hinv
  | false =>
      cases hs : s.snake with
      | nil => rw [tick_empty_snake c rand s hgo hs] at h; exact absurd h (by simp)
      | cons hd tl =>
          obtain ⟨hx, hy⟩ := hd
          obtain ⟨hbounds, hnodup, hfood, hlen, hnextd, hneck⟩ := hinv hgo
          have hnh := new_head_eq s hx hy tl hs
          by_cases hcol : hits_wall c (new_head s) ∨ hits_self s (new_head s)
          · rw [tick_collision c rand s hgo hx hy tl hs hcol] at h
            injection h with h
            subst h
            intro hfalse
            exact absurd hfalse (by simp)
          · have hnhb : in_bounds c (new_head s) :=
              (not_hits_wall_iff c _).mp fun hw => hcol (Or.inl hw)
            have hnhs : new_head s ∉ s.snake := fun hm => hcol (Or.inr hm)
            by_cases hf : new_head s = s.food
            · cases hsp : spawn_food c rand (new_head s :: s.snake) with
              | none =>
                  rw [tick_eat_fail c rand s hgo hx hy tl hs hcol hf hsp] at h
                  exact absurd h (by simp)
              | some f2 =>
                  rw [tick_eat c rand s f2 hgo hx hy tl hs hcol hf hsp] at h
                  injection h with h
                  subst h
                  obtain ⟨hf2b, hf2n⟩ := spawn_food_some_spec _ _ _ _ hsp
                  intro _
                  refine ⟨?_, ?_, hf2n, ?_, ?_, ?_⟩
                  · intro p hp
                    rcases List.mem_cons.mp hp with rfl | hp
                    · exact hnhb
                    · exact hbounds p hp
                  · exact List.nodup_cons.mpr ⟨hnhs, hnodup⟩
                  · simp only [List.length_cons, hlen]
                  · exact fun he => opposites_ne _ he.symm
                  · intro a b r heq
                    simp only [List.cons.injEq] at heq
                    obtain ⟨rfl, heq⟩ := heq
                    rw [hs] at heq
                    obtain ⟨rfl, -⟩ := List.cons.injEq .. ▸ heq
                    rw [hnh]
                    simp only [Prod.mk.injEq]
                    omega
            · rw [tick_move c rand s hgo hx hy tl hs hcol hf] at h
              injection h with h
              subst h
              have hfns : s.food ∉ new_head s :: s.snake := by
                intro hm
                rcases List.mem_cons.mp hm with he | hm
                · exact hf he.symm
                · exact hfood hm
              intro _
              refine ⟨?_, ?_, ?_, ?_, ?_, ?_⟩
              · intro p hp
                have hp2 := (List.dropLast_sublist _).subset hp
                rcases List.mem_cons.mp hp2 with rfl | hp2
                · exact hnhb
                · exact hbounds p hp2
              · exact List.Nodup.sublist (List.dropLast_sublist _)
                  (List.nodup_cons.mpr ⟨hnhs, hnodup⟩)
              · exact fun hm => hfns ((List.dropLast_sublist _).subset hm)
              · simp only [List.length_dropLast, List.length_cons,
                  Nat.add_sub_cancel, hlen]
              · exact fun he => opposites_ne _ he.symm
              · intro a b r heq
                cases tl with
                | nil =>
                    rw [hs] at hlen
                    simp only [List.length_cons, List.length_nil] at hlen
                    omega
                | cons u us =>
                    rw [hs, List.dropLast_cons₂] at heq
                    simp only [List.cons.injEq] at heq
                    obtain ⟨rfl, heq⟩ := heq
                    rw [List.dropLast_cons₂] at heq
                    obtain ⟨rfl, -⟩ := List.cons.injEq .. ▸ heq
                    rw [hnh]
                    simp only [Prod.mk.injEq]
                    omega

theorem change_direction_inv (c : Config) (s : GameState) (d : Dir)
    (hinv : Inv c s) : Inv c (change_direction s d) := by
  unfold change_direction
  split
  · exact hinv
  · split
    · exact hinv
    · rename_i hgo hne
      intro _
      obtain ⟨hbounds, hnodup, hfood, hlen, -, hneck⟩ :=
        hinv (by simpa using hgo)
      exact ⟨hbounds, hnodup, hfood, hlen, hne, hneck⟩

theorem restart_inv (c : Config) (hc : 4 ≤ c.cols) (hrw : 1 ≤ c.rows)
    (rand : Nat) (s t : GameState) (hinv : Inv c s)
    (h : restart_if_game_over c rand s = some t) : Inv c t := by
  rw [restart_if_game_over] at h
  split at h
  · exact reset_game_inv c hc hrw rand t h
  · injection h with h
    subst h
    exact hinv

theorem reachable_inv (c : Config) (hc : 4 ≤ c.cols) (hrw : 1 ≤ c.rows)
    (s : GameState) (h : Reachable c s) : Inv c s := by
  induction h with
  | init rand s h => exact reset_game_inv c hc hrw rand s h
  | step_tick rand s t hreach htick ih => exact tick_inv c rand s t ih htick
  | step_dir d s hreach ih => exact change_direction_inv c s d ih
  | step_restart rand s t hreach hres ih =>
      exact restart_inv c hc hrw rand s t ih hres

/-! ### Restart support lemmas -/

theorem initial_available_ne_nil (c : Config) (hc : 4 ≤ c.cols)
    (hrw : 1 ≤ c.rows) : available_cells c (initial_snake c) ≠ [] := by
  intro hnil
  have hmem : (((c.cols / 2 + 1 : Nat) : Int), ((c.rows / 2 : Nat) : Int)) ∈
      available_cells c (initial_snake c) := by
    rw [mem_available_cells]
    constructor
    · exact ⟨by omega, by omega, by simp only; omega, by simp only; omega⟩
    · simp only [initial_snake, List.mem_cons, List.not_mem_nil, or_false,
        Prod.mk.injEq, not_or, not_and]
      exact ⟨by omega, by omega, by omega⟩
  rw [hnil] at hmem
  exact List.not_mem_nil _ hmem

theorem spawn_food_some_of_ne_nil (c : Config) (rand : Nat)
    (snake : List (Int × Int)) (h : available_cells c snake ≠ []) :
    ∃ f, spawn_food c rand snake = some f := by
  cases hsp : spawn_food c rand snake with
  | none => exact absurd ((spawn_food_eq_none_iff ..).mp hsp) h
  | some f => exact ⟨f, rfl⟩

theorem reset_game_eq_some (c : Config) (rand : Nat) (f : Int × Int)
    (hf : spawn_food c rand (initial_snake c) = some f) :
    reset_game c rand = some
      { snake := initial_snake c
        direction := .right
        next_direction := .right
        food := f
        score := 0
        game_over := false
        speed_ms := c.base_speed_ms } := by
  rw [reset_game, hf]

/-! ### Concrete boards and states used as witnesses -/

/-- The state `reset_game` produces for the configuration of the source
(`default_config`, a 50×33 board) with random index 0: the snake is
centered at column 25 = 50 / 2, row 16 = 33 / 2, and the food lands on the
first free cell in the enumeration order, `(0, 0)`. -/
def fresh_state : GameState :=
  { snake := [(25, 16), (24, 16), (23, 16)]
    direction := .right
    next_direction := .right
    food := (0, 0)
    score := 0
    game_over := false
    speed_ms := 200 }

set_option maxRecDepth 10000 in
theorem reset_default : reset_game default_config 0 = some fresh_state := by
  decide

/-- A board of 10×10 cells, as in the scenarios of the spec, with the tick
intervals of the source. -/
def c10 : Config :=
  { width := 10, height := 10, cell_size := 1
    base_speed_ms := 200, min_speed_ms := 100 }

/-- The first scenario of the spec: snake `[(5,5),(4,5),(3,5)]`, direction
Right, food at `(5,4)`. -/
def move_state : GameState :=
  { snake := [(5, 5), (4, 5), (3, 5)]
    direction := .right
    next_direction := .right
    food := (5, 4)
    score := 0
    game_over := false
    speed_ms := 200 }

/-- The state after one `tick` from `move_state`: the snake translated one
cell to the right, everything else unchanged. -/
def moved_state : GameState :=
  { snake := [(6, 5), (5, 5), (4, 5)]
    direction := .right
    next_direction := .right
    food := (5, 4)
    score := 0
    game_over := false
    speed_ms := 200 }

/-- The wall scenario of the spec: head at column 0 moving Left. -/
def wall_state : GameState :=
  { snake := [(0, 5), (1, 5), (2, 5)]
    direction := .left
    next_direction := .left
    food := (9, 9)
    score := 1
    game_over := false
    speed_ms := 200 }

/-- A snake curled into a 2×2 loop on the 10×10 board: the head `(1, 1)`
arrived moving Right, the pending direction Up points at the tail cell
`(1, 0)`, which is still part of the pre-move body. -/
def loop_state : GameState :=
  { snake := [(1, 1), (0, 1), (0, 0), (1, 0)]
    direction := .right
    next_direction := .up
    food := (3, 3)
    score := 1
    game_over := false
    speed_ms := 200 }

/-- A game-over state on the default board. -/
def over_state : GameState :=
  { snake := [(25, 16), (24, 16), (23, 16)]
    direction := .left
    next_direction := .left
    food := (0, 0)
    score := 7
    game_over := true
    speed_ms := 186 }

/-- A 2×2-cell board. -/
def c2x2 : Config :=
  { width := 2, height := 2, cell_size := 1
    base_speed_ms := 200, min_speed_ms := 100 }

/-- On the 2×2 board: the snake occupies three of the four cells and the
pending direction moves the head onto the food in the only free cell, so
the post-eat snake fills the whole board. -/
def almost_full_state : GameState :=
  { snake := [(0, 0), (0, 1), (1, 1)]
    direction := .up
    next_direction := .right
    food := (1, 0)
    score := 0
    game_over := false
    speed_ms := 200 }

/-- The configuration of the source with the two intervals swapped, so
that `min_speed_ms > base_speed_ms`. -/
def swapped_config : Config :=
  { width := 1500, height := 1000, cell_size := 30
    base_speed_ms := 100, min_speed_ms := 200 }

/-- A configuration whose pixel width is smaller than one cell, so the
board has zero columns. -/
def zero_cols_config : Config :=
  { width := 10, height := 1000, cell_size := 30
    base_speed_ms := 200, min_speed_ms := 100 }

/-! ### The claims -/

/-- C1: for every reachable game state with `game_over = false`, every
snake segment lies within the board bounds `[0, cols) × [0, rows)`, the
snake contains no duplicate positions, and the food position is not equal
to any snake segment. (Stated for every configuration whose board can hold
the initial three-cell centered snake — `4 ≤ cols`, `1 ≤ rows` — which the
shipped `default_config`, a 50×33 board, satisfies.) -/
theorem C1_running_state_invariants (c : Config) (s : GameState)
    (hc : 4 ≤ c.cols) (hrw : 1 ≤ c.rows) (hreach : Reachable c s)
    (hgo : s.game_over = false) :
    (∀ p ∈ s.snake, in_bounds c p) ∧ s.snake.Nodup ∧ s.food ∉ s.snake := by
  obtain ⟨h1, h2, h3, -⟩ := reachable_inv c hc hrw s hreach hgo
  exact ⟨h1, h2, h3⟩

/-- Witness for C1 at the fresh state of the default configuration. -/
theorem C1_witness :
    4 ≤ default_config.cols ∧ 1 ≤ default_config.rows ∧
    fresh_state.game_over = false ∧
    in_bounds default_config (25, 16) ∧
    fresh_state.snake.Nodup ∧ fresh_state.food ∉ fresh_state.snake := by
  have h := C1_running_state_invariants default_config fresh_state
    (by decide) (by decide) (Reachable.init 0 fresh_state reset_default) rfl
  exact ⟨by decide, by decide, rfl, h.1 (25, 16) (by simp [fresh_state]),
    h.2.1, h.2.2⟩

/-- C2: during `tick`, the self-collision check is evaluated against the
pre-move snake body, before any tail segment is removed this tick; in
particular, when the new head equals the current tail cell and no food
would be eaten, `tick` sets `game_over = true` (and leaves the snake as it
was). -/
theorem C2_tail_cell_counts_as_collision (c : Config) (rand : Nat)
    (s : GameState) (hgo : s.game_over = false)
    (htail : s.snake.getLast? = some (new_head s))
    (hnofood : new_head s ≠ s.food) :
    tick c rand s =
      some { s with direction := s.next_direction, game_over := true } := by
  have hmem : new_head s ∈ s.snake := by
    obtain ⟨hne2, heq⟩ :=
      List.mem_getLast?_eq_getLast (Option.mem_def.mpr htail)
    rw [heq]
    exact List.getLast_mem hne2
  have hne : s.snake ≠ [] := by
    intro hnil
    rw [hnil] at hmem
    exact List.not_mem_nil _ hmem
  obtain ⟨⟨hx, hy⟩, tl, hs⟩ : ∃ a tl, s.snake = a :: tl :=
    List.exists_cons_of_ne_nil hne
  exact tick_collision c rand s hgo hx hy tl hs (Or.inr hmem)

/-- Witness for C2: the curled snake of `loop_state`, whose pending
direction points at the tail cell. -/
theorem C2_witness :
    loop_state.game_over = false ∧
    new_head loop_state ≠ loop_state.food ∧
    tick c10 0 loop_state =
      some { loop_state with direction := Dir.up, game_over := true } := by
  exact ⟨rfl, by decide,
    C2_tail_cell_counts_as_collision c10 0 loop_state rfl
      (by decide) (by decide)⟩

/-- C3 counterexample: on the 2×2 board, once the head eats the food in
the last free cell, `spawn_food` finds no empty cell; contrary to the
claim, there is no `BoardFullError` recovery — `tick` yields no successor
state at all (the `IndexError` raised by `random.choice` on the empty
`available` list propagates uncaught), and in particular no state with
`game_over = true`. -/
theorem C3_counterexample :
    available_cells c2x2 (new_head almost_full_state ::
      almost_full_state.snake) = [] ∧
    almost_full_state.game_over = false ∧
    tick c2x2 0 almost_full_state = none := by decide

/-- C3 (amended): if spawning food finds no empty cell (the snake occupies
the entire board after eating), the underlying random choice fails and
`tick` does not recover: the failure propagates (no successor state) and
the game is not transitioned to `game_over = true`. -/
theorem C3_amended_spawn_failure_propagates (c : Config) (rand : Nat)
    (s : GameState) (hgo : s.game_over = false) (hx hy : Int)
    (tl : List (Int × Int)) (hs : s.snake = (hx, hy) :: tl)
    (hcol : ¬ (hits_wall c (new_head s) ∨ hits_self s (new_head s)))
    (hfood : new_head s = s.food)
    (hfull : available_cells c (new_head s :: s.snake) = []) :
    tick c rand s = none :=
  tick_eat_fail c rand s hgo hx hy tl hs hcol hfood
    ((spawn_food_eq_none_iff ..).mpr (hs ▸ hfull))

/-- Witness for the amended C3 at the 2×2 board. -/
theorem C3_witness :
    almost_full_state.game_over = false ∧
    tick c2x2 0 almost_full_state = none := by
  refine ⟨rfl, ?_⟩
  exact C3_amended_spawn_failure_propagates c2x2 0 almost_full_state rfl
    0 0 [(0, 1), (1, 1)] rfl (by decide) (by decide) (by decide)

set_option maxRecDepth 10000 in
/-- C4 counterexample: with the two intervals swapped
(`min_speed_ms = 200 > 100 = base_speed_ms`) the claim demands a
`ConfigError` failure, but construction performs no validation and
succeeds, producing a fully constructed engine state. -/
theorem C4_counterexample :
    swapped_config.base_speed_ms < swapped_config.min_speed_ms ∧
    reset_game swapped_config 0 =
      some { fresh_state with speed_ms := 100 } := by decide

/-- C4 (amended): initialization performs no configuration validation and
no `ConfigError` exists in the code. Construction fails exactly when the
initial food spawn finds no free cell (the uncaught `IndexError` of
`random.choice`), which happens in particular whenever the board has zero
columns or zero rows; a configuration with `min_speed_ms > base_speed_ms`
is accepted and construction succeeds or fails independently of the two
intervals. -/
theorem C4_amended_no_config_validation (c : Config) (rand : Nat) :
    (reset_game c rand = none ↔
      available_cells c (initial_snake c) = []) ∧
    (c.cols = 0 ∨ c.rows = 0 → reset_game c rand = none) := by
  have hiff : reset_game c rand = none ↔
      spawn_food c rand (initial_snake c) = none := by
    rw [reset_game]
    cases hsp : spawn_food c rand (initial_snake c) <;> simp
  refine ⟨hiff.trans (spawn_food_eq_none_iff ..), ?_⟩
  intro hzero
  rw [hiff, spawn_food_eq_none_iff]
  rw [List.eq_nil_iff_forall_not_mem]
  intro p hp
  rw [mem_available_cells] at hp
  obtain ⟨⟨h1, h2, h3, h4⟩, -⟩ := hp
  rcases hzero with hz | hz
  · rw [hz] at h3
    omega
  · rw [hz] at h4
    omega

/-- Witness for the amended C4: a 10-pixel-wide board yields zero columns
and construction indeed fails (with the spawn error, not a `ConfigError`). -/
theorem C4_witness :
    zero_cols_config.cols = 0 ∧ reset_game zero_cols_config 0 = none := by
  refine ⟨by decide, ?_⟩
  exact (C4_amended_no_config_validation zero_cols_config 0).2
    (Or.inl (by decide))

/-- C5: for every reachable state with `game_over = false` and current
committed direction `D`, `change_direction (opposites D)` leaves the state
(in particular the pending direction) unchanged, and for the snake (whose
length is ≥ 2 in every reachable running state) the subsequent `tick`
never produces a self-collision caused by 180° reversal: the new head
computed from the pending direction never equals the neck (the second
snake segment). -/
theorem C5_reversal_rejected (c : Config) (s : GameState)
    (hc : 4 ≤ c.cols) (hrw : 1 ≤ c.rows) (hreach : Reachable c s)
    (hgo : s.game_over = false) :
    change_direction s (opposites s.direction) = s ∧
    ∀ a b r, s.snake = a :: b :: r → new_head s ≠ b := by
  obtain ⟨-, -, -, -, hnextd, hneck⟩ := reachable_inv c hc hrw s hreach hgo
  constructor
  · rw [change_direction, hgo]
    simp
  · intro a b r hs heq
    have hb := hneck a b r hs
    obtain ⟨ax, ay⟩ := a
    have hnh := new_head_eq s ax ay _ hs
    rw [hnh, hb] at heq
    refine hnextd (eq_opposites_of_direction_vectors_neg _ _ ?_)
    have h1 := congrArg Prod.fst heq
    have h2 := congrArg Prod.snd heq
    simp only at h1 h2
    have e1 : (direction_vectors s.next_direction).1 =
        -(direction_vectors s.direction).1 := by omega
    have e2 : (direction_vectors s.next_direction).2 =
        -(direction_vectors s.direction).2 := by omega
    rw [Prod.ext_iff]
    exact ⟨e1, e2⟩

/-- Witness for C5 at the fresh state of the default configuration. -/
theorem C5_witness :
    fresh_state.game_over = false ∧
    change_direction fresh_state (opposites fresh_state.direction) =
      fresh_state ∧
    new_head fresh_state ≠ (24, 16) := by
  have h := C5_reversal_rejected default_config fresh_state
    (by decide) (by decide) (Reachable.init 0 fresh_state reset_default) rfl
  exact ⟨rfl, h.1, h.2 (25, 16) (24, 16) [(23, 16)] rfl⟩

/-- C6: on a collision-free `tick` (one that succeeds and does not end the
game), the score increases by exactly 1 if and only if the new head equals
the prior food cell, in which case the tick interval is recomputed as
`max min_speed_ms (base_speed_ms - score * 2)` with the incremented score
(hence floored at `min_speed_ms`) and the snake grows by one segment;
otherwise score and interval are unchanged and the tail segment is
removed, so the snake length is unchanged. -/
theorem C6_score_and_speed (c : Config) (rand : Nat) (s t : GameState)
    (hgo : s.game_over = false) (htick : tick c rand s = some t)
    (hgo2 : t.game_over = false) :
    (t.score = s.score + 1 ↔ new_head s = s.food) ∧
    (new_head s = s.food →
      t.speed_ms = max c.min_speed_ms
        (c.base_speed_ms - ((s.score : Int) + 1) * 2) ∧
      c.min_speed_ms ≤ t.speed_ms ∧
      t.snake.length = s.snake.length + 1) ∧
    (new_head s ≠ s.food →
      t.score = s.score ∧ t.speed_ms = s.speed_ms ∧
      t.snake = (new_head s :: s.snake).dropLast ∧
      t.snake.length = s.snake.length) := by
  cases hs : s.snake with
  | nil =>
      rw [tick_empty_snake c rand s hgo hs] at htick
      exact absurd htick (by simp)
  | cons hd tl =>
      obtain ⟨hx, hy⟩ := hd
      by_cases hcol : hits_wall c (new_head s) ∨ hits_self s (new_head s)
      · rw [tick_collision c rand s hgo hx hy tl hs hcol] at htick
        injection htick with htick
        rw [← htick] at hgo2
        exact absurd hgo2 (by simp)
      · by_cases hf : new_head s = s.food
        · cases hsp : spawn_food c rand (new_head s :: s.snake) with
          | none =>
              rw [tick_eat_fail c rand s hgo hx hy tl hs hcol hf hsp] at htick
              exact absurd htick (by simp)
          | some f2 =>
              rw [tick_eat c rand s f2 hgo hx hy tl hs hcol hf hsp] at htick
              injection htick with htick
              subst htick
              refine ⟨by simp [hf], fun _ => ⟨rfl, le_max_left _ _, ?_⟩,
                fun hne => absurd hf hne⟩
              show (new_head s :: s.snake).length = ((hx, hy) :: tl).length + 1
              rw [hs, List.length_cons]
        · rw [tick_move c rand s hgo hx hy tl hs hcol hf] at htick
          injection htick with htick
          subst htick
          refine ⟨?_, fun he => absurd he hf, fun _ => ⟨rfl, rfl, ?_, ?_⟩⟩
          · show s.score = s.score + 1 ↔ new_head s = s.food
            constructor
            · intro habs
              omega
            · intro he
              exact absurd he hf
          · show (new_head s :: s.snake).dropLast =
              (new_head s :: (hx, hy) :: tl).dropLast
            rw [hs]
          · show ((new_head s :: s.snake).dropLast).length =
              ((hx, hy) :: tl).length
            rw [hs]
            simp only [List.length_dropLast, List.length_cons,
              Nat.add_sub_cancel]

/-- Witness for C6 at the first scenario of the spec: a plain move, no
food eaten, score and interval unchanged, length unchanged. -/
theorem C6_witness :
    move_state.game_over = false ∧ moved_state.game_over = false ∧
    tick c10 0 move_state = some moved_state ∧
    (moved_state.score = move_state.score + 1 ↔
      new_head move_state = move_state.food) ∧
    moved_state.score = move_state.score ∧
    moved_state.speed_ms = move_state.speed_ms ∧
    moved_state.snake.length = move_state.snake.length := by
  have htick : tick c10 0 move_state = some moved_state := by decide
  have h := C6_score_and_speed c10 0 move_state moved_state rfl htick rfl
  have hnf : new_head move_state ≠ move_state.food := by decide
  obtain ⟨h1, -, h3⟩ := h
  obtain ⟨ha, hb, -, hd⟩ := h3 hnf
  exact ⟨rfl, rfl, htick, h1, ha, hb, hd⟩

/-- C7: if the new head computed by `tick` lies outside
`[0, cols) × [0, rows)` (wall collision), then after `tick` the game is
over and the snake is exactly its pre-tick value (no segment added or
removed): the whole resulting state is the old one with only the committed
direction and the `game_over` flag updated. -/
theorem C7_wall_collision_ends_game (c : Config) (rand : Nat)
    (s : GameState) (hgo : s.game_over = false) (hne : s.snake ≠ [])
    (hwall : hits_wall c (new_head s)) :
    tick c rand s =
      some { s with direction := s.next_direction, game_over := true } := by
  obtain ⟨⟨hx, hy⟩, tl, hs⟩ : ∃ a tl, s.snake = a :: tl :=
    List.exists_cons_of_ne_nil hne
  exact tick_collision c rand s hgo hx hy tl hs (Or.inl hwall)

/-- Witness for C7 at the wall scenario of the spec: head at column 0
moving Left. -/
theorem C7_witness :
    wall_state.game_over = false ∧ hits_wall c10 (new_head wall_state) ∧
    tick c10 0 wall_state =
      some { wall_state with direction := Dir.left, game_over := true } := by
  have hne : wall_state.snake ≠ [] := by simp [wall_state]
  have hw : hits_wall c10 (new_head wall_state) := by decide
  exact ⟨rfl, hw, C7_wall_collision_ends_game c10 0 wall_state rfl hne hw⟩

/-- C8: `restart_if_game_over` is a no-op unless `game_over = true`; from
any state with `game_over = true` it produces a state with score 0,
`game_over = false`, the snake of length 3 centered on the board,
direction Right, and tick interval `base_speed_ms`. (Stated for boards
large enough to hold the centered snake, as `default_config` is; on such
boards the fresh spawn always finds a free cell.) -/
theorem C8_restart_semantics (c : Config) (rand : Nat) (s : GameState)
    (hc : 4 ≤ c.cols) (hrw : 1 ≤ c.rows) :
    (s.game_over = false → restart_if_game_over c rand s = some s) ∧
    (s.game_over = true → ∃ t, restart_if_game_over c rand s = some t ∧
      t.score = 0 ∧ t.game_over = false ∧ t.snake = initial_snake c ∧
      t.snake.length = 3 ∧ t.direction = Dir.right ∧
      t.next_direction = Dir.right ∧ t.speed_ms = c.base_speed_ms) := by
  constructor
  · intro hgo
    rw [restart_if_game_over, hgo]
    simp
  · intro hgo
    rw [restart_if_game_over, hgo]
    obtain ⟨f, hf⟩ := spawn_food_some_of_ne_nil c rand (initial_snake c)
      (initial_available_ne_nil c hc hrw)
    refine ⟨_, by rw [if_pos rfl]; exact reset_game_eq_some c rand f hf,
      rfl, rfl, rfl, ?_, rfl, rfl, rfl⟩
    simp [initial_snake]

/-- Witness for C8: restarting from a concrete game-over state on the
default board yields exactly the fresh state. -/
theorem C8_witness :
    over_state.game_over = true ∧
    restart_if_game_over default_config 0 over_state = some fresh_state ∧
    fresh_state.score = 0 ∧ fresh_state.game_over = false ∧
    fresh_state.snake.length = 3 ∧ fresh_state.direction = Dir.right ∧
    fresh_state.speed_ms = default_config.base_speed_ms := by
  obtain ⟨t, ht, h1, h2, h3, h4, h5, h6, h7⟩ :=
    (C8_restart_semantics default_config 0 over_state
      (by decide) (by decide)).2 rfl
  have hover : over_state.game_over = true := rfl
  have heq : restart_if_game_over default_config 0 over_state =
      some fresh_state := by
    rw [restart_if_game_over, hover, if_pos rfl]
    exact reset_default
  rw [heq] at ht
  injection ht with ht
  subst ht
  exact ⟨rfl, heq, h1, h2, h4, h5, h7⟩

/-- C9: for every state with `game_over = true`, `tick` leaves the entire
game state (snake, direction, pending direction, food, score, `game_over`,
tick interval) unchanged, and repeated calls of `tick` (with arbitrary
random draws) likewise leave it unchanged. -/
theorem C9_tick_noop_when_over (c : Config) (rand1 rand2 : Nat)
    (s : GameState) (hgo : s.game_over = true) :
    tick c rand1 s = some s ∧ tick c rand2 s = some s :=
  ⟨tick_of_game_over c rand1 s hgo, tick_of_game_over c rand2 s hgo⟩

/-- Witness for C9 at a concrete game-over state. -/
theorem C9_witness :
    over_state.game_over = true ∧
    tick default_config 0 over_state = some over_state ∧
    tick default_config 7 over_state = some over_state :=
  ⟨rfl, C9_tick_noop_when_over default_config 0 7 over_state rfl⟩

/-- C10: in every reachable state with `game_over = false`, the snake
length equals `3 + score`: the snake starts at length 3 with score 0, and
each tick either grows the snake by one segment while incrementing the
score (food eaten) or keeps both unchanged. (Stated for boards that can
hold the centered initial snake, as `default_config` is.) -/
theorem C10_snake_length_is_score_plus_three (c : Config) (s : GameState)
    (hc : 4 ≤ c.cols) (hrw : 1 ≤ c.rows) (hreach : Reachable c s)
    (hgo : s.game_over = false) :
    s.snake.length = 3 + s.score := by
  obtain ⟨-, -, -, hlen, -⟩ := reachable_inv c hc hrw s hreach hgo
  omega

/-- Witness for C10 at the fresh state of the default configuration. -/
theorem C10_witness :
    fresh_state.game_over = false ∧
    fresh_state.snake.length = 3 + fresh_state.score :=
  ⟨rfl, C10_snake_length_is_score_plus_three default_config fresh_state
    (by decide) (by decide) (Reachable.init 0 fresh_state reset_default) rfl⟩

end SnakeGame
